import Mathlib

/-!
Shallow embedding of the qsos-lng scoring engine (`score.go`): the band
mapper `computeScore`, the metric preprocessing in the nine
`compute*Score` functions, the weighted scorecard aggregator
`computeScoreCardScore`, and the score assembler `ComputeScores`.

Modelling conventions:
* Go `int64` values are modelled as `Int`; overflow plays no role in any
  statement proved here (both the code model and the specification-side
  expressions accumulate the same products and sums).
* Go truncating integer division (`/` on `int64`, rounds toward zero) is
  `Int.tdiv`.
* `time.Time` values and `time.Since(t).Nanoseconds()` are modelled by
  nanosecond instants of type `Int` with an explicit clock reading `now`
  passed to the functions that read the clock; the elapsed duration is
  `now - t`.
* Go `float64` (only `DuplicationDensity`) is modelled as `ℚ`; the Go
  conversion `int64(f)` truncates toward zero, modelled by `ratTrunc`.
* Go runtime panics (integer division by zero) and `log.Fatalf` abort the
  process without producing a result; both are modelled by `Except` with
  the error type `ScoreErr`: `ScoreErr.divByZero` is the runtime
  integer-divide-by-zero fault, `ScoreErr.missingCheck n` is the
  `log.Fatalf("check %s not found in scorecard scores")` abort.
* The Go map `Weights.ScoreCard : map[string]int64` is modelled as an
  association list; additions over it are commutative, so the list order
  stands in for the map's unspecified iteration order.
-/

instance {ε α : Type _} [DecidableEq ε] [DecidableEq α] : DecidableEq (Except ε α) := fun x y =>
  match x, y with
  | .error a, .error b =>
    if h : a = b then isTrue (congrArg Except.error h)
    else isFalse fun hc => h (Except.error.inj hc)
  | .ok a, .ok b =>
    if h : a = b then isTrue (congrArg Except.ok h)
    else isFalse fun hc => h (Except.ok.inj hc)
  | .error _, .ok _ => isFalse fun hc => Except.noConfusion hc
  | .ok _, .error _ => isFalse fun hc => Except.noConfusion hc

/-- Go: `type Direction bool`. -/
abbrev Direction := Bool

/-- Go: `BiggerIsBetter Direction = true`. -/
def BiggerIsBetter : Direction := true

/-- Go: `SmallerIsBetter Direction = false`. -/
def SmallerIsBetter : Direction := false

/-- Go: a `[4]int64` threshold array; `t0`..`t3` are indices 0..3. -/
structure Thresholds4 where
  t0 : Int
  t1 : Int
  t2 : Int
  t3 : Int
deriving DecidableEq, Repr

/-- Indexing `thresholds[i]` of the `[4]int64` array. -/
def Thresholds4.get (th : Thresholds4) : Fin 4 → Int
  | 0 => th.t0
  | 1 => th.t1
  | 2 => th.t2
  | 3 => th.t3

/-- The spec's invariant on a breakpoint tuple: strictly increasing. -/
def Thresholds4.StrictIncr (th : Thresholds4) : Prop :=
  th.t0 < th.t1 ∧ th.t1 < th.t2 ∧ th.t2 < th.t3

instance (th : Thresholds4) : Decidable th.StrictIncr := by
  unfold Thresholds4.StrictIncr; infer_instance

/-- Go: the array literal `[5]int64{1, 2, 3, 4, 5}`. -/
def scale1to5 : Fin 5 → Int
  | 0 => 1
  | 1 => 2
  | 2 => 3
  | 3 => 4
  | 4 => 5

/-- Go: the array literal `[5]int64{5, 4, 3, 2, 1}`. -/
def scale5to1 : Fin 5 → Int
  | 0 => 5
  | 1 => 4
  | 2 => 3
  | 3 => 2
  | 4 => 1

/-- Go: `func computeScore(nb int64, thresholds [4]int64, direction Direction) int64`.
The `switch` with `case nb > thresholds[i]` clauses becomes a cascade of
`if` expressions tried from index 3 down to 0. -/
def computeScore (nb : Int) (thresholds : Thresholds4) (direction : Direction) : Int :=
  let scale := if direction = SmallerIsBetter then scale5to1 else scale1to5
  if nb > thresholds.t3 then scale 4
  else if nb > thresholds.t2 then scale 3
  else if nb > thresholds.t1 then scale 2
  else if nb > thresholds.t0 then scale 1
  else scale 0

/-- Go: `type CommunityThreshold struct`. -/
structure CommunityThreshold where
  maturity : Thresholds4
  activity : Thresholds4
  popularity : Thresholds4
  contributors : Thresholds4
deriving DecidableEq, Repr

/-- Go: `type TechThreshold struct`. -/
structure TechThreshold where
  size : Thresholds4
  cyclomaticComplexity : Thresholds4
  cognitiveComplexity : Thresholds4
  duplication : Thresholds4
  codeSmells : Thresholds4
deriving DecidableEq, Repr

/-- Go: `type Thresholds struct`. -/
structure Thresholds where
  community : CommunityThreshold
  tech : TechThreshold
deriving DecidableEq, Repr

/-- Go: `type GitHubStats struct`; the two dates are nanosecond instants. -/
structure GitHubStats where
  firstCommitDate : Int
  lastCommitDate : Int
  stars : Int
  activeContributors : Int
deriving DecidableEq, Repr

/-- Go: `type SonarStats struct`; `DuplicationDensity float64` becomes `ℚ`. -/
structure SonarStats where
  linesOfCode : Int
  functions : Int
  codeSmells : Int
  brainOverload : Int
  cyclomaticComplexity : Int
  cognitiveComplexity : Int
  duplicationDensity : ℚ
deriving DecidableEq, Repr

/-- Go: one element of `ScoreCardStats.Checks`. -/
structure Check where
  name : String
  score : Int
deriving DecidableEq, Repr

/-- Go: `type ScoreCardStats struct { Checks []struct{...} }`. -/
structure ScoreCardStats where
  checks : List Check
deriving DecidableEq, Repr

/-- Go: `type ProjectStats struct`. -/
structure ProjectStats where
  gitHub : GitHubStats
  sonar : SonarStats
  scoreCard : ScoreCardStats
deriving DecidableEq, Repr

/-- Go: `type Weights struct { ScoreCard map[string]int64 }`, as an
association list of (check name, weight). -/
structure Weights where
  scoreCard : List (String × Int)
deriving DecidableEq, Repr

/-- Go: `type CommunityScores struct`. -/
structure CommunityScores where
  maturity : Int
  activity : Int
  popularity : Int
  contributors : Int
deriving DecidableEq, Repr

/-- Go: `type TechScores struct`. -/
structure TechScores where
  size : Int
  cyclomaticComplexity : Int
  cognitiveComplexity : Int
  duplication : Int
  codeSmells : Int
deriving DecidableEq, Repr

/-- Go: `type SecurityScores struct`. -/
structure SecurityScores where
  scoreCard : Int
deriving DecidableEq, Repr

/-- Go: `type ProjectScores struct`. -/
structure ProjectScores where
  community : CommunityScores
  tech : TechScores
  security : SecurityScores
deriving DecidableEq, Repr

/-- The observable failure modes of the scoring computation: the Go
runtime panic `integer divide by zero`, and the `log.Fatalf` abort for a
check name that appears in the weights but not in the scorecard checks. -/
inductive ScoreErr where
  | divByZero : ScoreErr
  | missingCheck : String → ScoreErr
deriving DecidableEq, Repr

/-- Go conversion `int64(f)` for `f float64`: truncation toward zero.
For a rational `num/den` (with `den > 0`) this is `num.tdiv den`. -/
def ratTrunc (q : ℚ) : Int := q.num.tdiv q.den

/-- Go: `computeMaturityScore`; `time.Since(t).Nanoseconds()` is `now - t`. -/
def computeMaturityScore (now : Int) (stats : ProjectStats) (thresholds : Thresholds) : Int :=
  computeScore (now - stats.gitHub.firstCommitDate) thresholds.community.maturity BiggerIsBetter

/-- Go: `computeActivityScore`. -/
def computeActivityScore (now : Int) (stats : ProjectStats) (thresholds : Thresholds) : Int :=
  computeScore (now - stats.gitHub.lastCommitDate) thresholds.community.activity SmallerIsBetter

/-- Go: `computePopularityScore`. -/
def computePopularityScore (stats : ProjectStats) (thresholds : Thresholds) : Int :=
  computeScore stats.gitHub.stars thresholds.community.popularity BiggerIsBetter

/-- Go: `computeContributorsScore`. -/
def computeContributorsScore (stats : ProjectStats) (thresholds : Thresholds) : Int :=
  computeScore stats.gitHub.activeContributors thresholds.community.contributors BiggerIsBetter

/-- Go: `computeSizeScore`. -/
def computeSizeScore (stats : ProjectStats) (thresholds : Thresholds) : Int :=
  computeScore stats.sonar.linesOfCode thresholds.tech.size SmallerIsBetter

/-- Go: `computeCyclomaticComplexityScore`:
`pct := int64(100.0 * stats.Sonar.BrainOverload / stats.Sonar.Functions)`
(all-`int64` arithmetic, truncating division). Division by zero is the
runtime panic, modelled as `ScoreErr.divByZero`. -/
def computeCyclomaticComplexityScore (stats : ProjectStats) (thresholds : Thresholds) :
    Except ScoreErr Int :=
  if stats.sonar.functions = 0 then .error .divByZero
  else
    let pct := (100 * stats.sonar.brainOverload).tdiv stats.sonar.functions
    .ok (computeScore pct thresholds.tech.cyclomaticComplexity SmallerIsBetter)

/-- Go: `computeCognitiveComplexityScore`:
`nb := int64(stats.Sonar.CognitiveComplexity / stats.Sonar.Functions)`. -/
def computeCognitiveComplexityScore (stats : ProjectStats) (thresholds : Thresholds) :
    Except ScoreErr Int :=
  if stats.sonar.functions = 0 then .error .divByZero
  else
    let nb := stats.sonar.cognitiveComplexity.tdiv stats.sonar.functions
    .ok (computeScore nb thresholds.tech.cognitiveComplexity SmallerIsBetter)

/-- Go: `computeDuplicationScore`: `nb := int64(stats.Sonar.DuplicationDensity)`. -/
def computeDuplicationScore (stats : ProjectStats) (thresholds : Thresholds) : Int :=
  computeScore (ratTrunc stats.sonar.duplicationDensity) thresholds.tech.duplication
    SmallerIsBetter

/-- Go: `computeCodeSmellsScore`:
`nb := int64(stats.Sonar.LinesOfCode / stats.Sonar.CodeSmells)`. -/
def computeCodeSmellsScore (stats : ProjectStats) (thresholds : Thresholds) :
    Except ScoreErr Int :=
  if stats.sonar.codeSmells = 0 then .error .divByZero
  else
    let nb := stats.sonar.linesOfCode.tdiv stats.sonar.codeSmells
    .ok (computeScore nb thresholds.tech.codeSmells BiggerIsBetter)

/-- The inner loop of `computeScoreCardScore`: for one required `name` and
its `weight`, walk the check slice, set `found` on a name match, and for
matches whose score is not `-1` accumulate `sum += score*weight` and
`divisor += weight`. -/
def checkLoop (name : String) (weight : Int) :
    List Check → Bool → Int → Int → Bool × Int × Int
  | [], found, sum, divisor => (found, sum, divisor)
  | check :: rest, found, sum, divisor =>
    if check.name ≠ name then checkLoop name weight rest found sum divisor
    else if check.score = -1 then checkLoop name weight rest true sum divisor
    else checkLoop name weight rest true (sum + check.score * weight) (divisor + weight)

/-- The outer loop of `computeScoreCardScore`: for each `(name, weight)`
entry of the weights map, run the inner loop; if the name was not found
among the checks, `log.Fatalf` aborts (`ScoreErr.missingCheck`). -/
def scoreCardLoop (checks : List Check) :
    List (String × Int) → Int → Int → Except ScoreErr (Int × Int)
  | [], sum, divisor => .ok (sum, divisor)
  | (name, weight) :: rest, sum, divisor =>
    match checkLoop name weight checks false sum divisor with
    | (found, s, d) =>
      if found then scoreCardLoop checks rest s d
      else .error (.missingCheck name)

/-- Go: `func computeScoreCardScore(stats *ProjectStats, weights *Weights) int64`.
The final `return (sum + 1) / divisor / 2` panics when `divisor == 0`
(`ScoreErr.divByZero`); otherwise it is two truncating divisions. -/
def computeScoreCardScore (stats : ProjectStats) (weights : Weights) : Except ScoreErr Int :=
  match scoreCardLoop stats.scoreCard.checks weights.scoreCard 0 0 with
  | .error e => .error e
  | .ok (sum, divisor) =>
    if divisor = 0 then .error .divByZero
    else .ok (((sum + 1).tdiv divisor).tdiv 2)

/-- Go: `func ComputeScores(stats *ProjectStats, thresholds *Thresholds, weights *Weights) *ProjectScores`.
The struct-literal fields are evaluated in source order; the first
panicking or aborting call ends the computation with its error. -/
def ComputeScores (now : Int) (stats : ProjectStats) (thresholds : Thresholds)
    (weights : Weights) : Except ScoreErr ProjectScores :=
  match computeCyclomaticComplexityScore stats thresholds with
  | .error e => .error e
  | .ok cyclomaticComplexity =>
    match computeCognitiveComplexityScore stats thresholds with
    | .error e => .error e
    | .ok cognitiveComplexity =>
      match computeCodeSmellsScore stats thresholds with
      | .error e => .error e
      | .ok codeSmells =>
        match computeScoreCardScore stats weights with
        | .error e => .error e
        | .ok scoreCard =>
          .ok { community := { maturity := computeMaturityScore now stats thresholds,
                               activity := computeActivityScore now stats thresholds,
                               popularity := computePopularityScore stats thresholds,
                               contributors := computeContributorsScore stats thresholds },
                tech := { size := computeSizeScore stats thresholds,
                          cyclomaticComplexity := cyclomaticComplexity,
                          cognitiveComplexity := cognitiveComplexity,
                          duplication := computeDuplicationScore stats thresholds,
                          codeSmells := codeSmells },
                security := { scoreCard := scoreCard } }

/-- The spec's band for the Band Mapper: the count of indices `i` with
`value > b[i]`. -/
def band (nb : Int) (th : Thresholds4) : ℕ :=
  (Finset.univ.filter fun i : Fin 4 => th.get i < nb).card

/-- Specification-side weighted sum contributed by one weights entry:
`score * weight` over the checks with that exact name and score ≠ -1. -/
def requiredSum (checks : List Check) (nw : String × Int) : Int :=
  ((checks.filter fun c => c.name == nw.1 && c.score != -1).map fun c => c.score * nw.2).sum

/-- Specification-side total weight contributed by one weights entry:
`weight` once per check with that exact name and score ≠ -1. -/
def requiredWeight (checks : List Check) (nw : String × Int) : Int :=
  ((checks.filter fun c => c.name == nw.1 && c.score != -1).map fun _ => nw.2).sum

/-- Specification-side `weightedSum`: sum of `score*weight` over exactly the
required checks whose score is not -1. -/
def specWeightedSum (checks : List Check) (ws : List (String × Int)) : Int :=
  (ws.map (requiredSum checks)).sum

/-- Specification-side `totalWeight`: sum of `weight` over exactly the
required checks whose score is not -1. -/
def specTotalWeight (checks : List Check) (ws : List (String × Int)) : Int :=
  (ws.map (requiredWeight checks)).sum

/-- Shift both commit dates of the stats by `d` nanoseconds (leaving every
other field unchanged); used to state clock-translation invariance. -/
def shiftDates (d : Int) (stats : ProjectStats) : ProjectStats :=
  { stats with gitHub := { stats.gitHub with
      firstCommitDate := stats.gitHub.firstCommitDate + d,
      lastCommitDate := stats.gitHub.lastCommitDate + d } }

/-! ## Band Mapper (`computeScore`) -/

/-- The band counts one indicator per breakpoint index. -/
lemma band_eq_indicators (nb : Int) (th : Thresholds4) :
    band nb th = ((if th.t0 < nb then 1 else 0) + (if th.t1 < nb then 1 else 0)
      + (if th.t2 < nb then 1 else 0) + (if th.t3 < nb then 1 else 0) : ℕ) := by
  unfold band
  rw [Finset.card_filter, Fin.sum_univ_four]
  rfl

/-- C2: for a strictly increasing breakpoint tuple, `computeScore` returns
`band + 1` for `BiggerIsBetter` and `5 - band` for `SmallerIsBetter`, where
`band` is the number of indices whose breakpoint is strictly exceeded, and
the result always lies in {1,2,3,4,5}. -/
theorem computeScore_band_formula (nb : Int) (th : Thresholds4) (dir : Direction)
    (h : th.StrictIncr) :
    computeScore nb th dir =
      (if dir = BiggerIsBetter then ((band nb th : ℕ) : Int) + 1
       else 5 - ((band nb th : ℕ) : Int)) ∧
    1 ≤ computeScore nb th dir ∧ computeScore nb th dir ≤ 5 := by
  obtain ⟨h01, h12, h23⟩ := h
  have hb := band_eq_indicators nb th
  cases dir <;>
    simp only [computeScore, BiggerIsBetter, SmallerIsBetter, if_true, if_false,
      Bool.false_eq_true, Bool.true_eq_false, ite_true, ite_false, gt_iff_lt] <;>
    simp only [scale1to5, scale5to1] <;>
    split_ifs at hb ⊢ <;> omega

/-- Witness for C2 at `nb = 3`, breakpoints `(0,1,2,3)`, `BiggerIsBetter`:
the band formula gives score 4, inside the range {1..5}. -/
theorem computeScore_band_formula_witness :
    computeScore 3 ⟨0, 1, 2, 3⟩ BiggerIsBetter = 4 ∧
    1 ≤ computeScore 3 ⟨0, 1, 2, 3⟩ BiggerIsBetter ∧
    computeScore 3 ⟨0, 1, 2, 3⟩ BiggerIsBetter ≤ 5 := by
  have h := computeScore_band_formula 3 ⟨0, 1, 2, 3⟩ BiggerIsBetter (by decide)
  exact ⟨h.1.trans (by decide), h.2⟩

/-- C8: the Band Mapper is monotone — nondecreasing in the value for
`BiggerIsBetter` and nonincreasing for `SmallerIsBetter`. -/
theorem computeScore_monotone (v1 v2 : Int) (th : Thresholds4) (dir : Direction)
    (h : th.StrictIncr) (hv : v1 ≤ v2) :
    (dir = BiggerIsBetter → computeScore v1 th dir ≤ computeScore v2 th dir) ∧
    (dir = SmallerIsBetter → computeScore v2 th dir ≤ computeScore v1 th dir) := by
  obtain ⟨h01, h12, h23⟩ := h
  cases dir <;>
    simp only [computeScore, BiggerIsBetter, SmallerIsBetter, Bool.false_eq_true,
      Bool.true_eq_false, ite_true, ite_false, gt_iff_lt, scale1to5, scale5to1,
      false_implies, true_implies, and_true, true_and] <;>
    split_ifs <;> omega

/-- Witness for C8 at `v1 = 1 ≤ v2 = 2`, breakpoints `(0,1,2,3)`,
`BiggerIsBetter`. -/
theorem computeScore_monotone_witness :
    (BiggerIsBetter = BiggerIsBetter →
      computeScore 1 ⟨0, 1, 2, 3⟩ BiggerIsBetter ≤ computeScore 2 ⟨0, 1, 2, 3⟩ BiggerIsBetter) ∧
    (BiggerIsBetter = SmallerIsBetter →
      computeScore 2 ⟨0, 1, 2, 3⟩ BiggerIsBetter ≤ computeScore 1 ⟨0, 1, 2, 3⟩ BiggerIsBetter) :=
  computeScore_monotone 1 2 ⟨0, 1, 2, 3⟩ BiggerIsBetter (by decide) (by decide)

/-- C9 counterexample: with the strictly increasing breakpoints `(0,1,2,3)`
and `BiggerIsBetter`, `score(b[3]) = 4` but `score(b[3] - 1) = score(2) = 3`:
when two breakpoints are adjacent integers, `score(b[i])` differs from
`score(b[i] - 1)`, so the claim fails as stated. -/
theorem computeScore_boundary_cex :
    Thresholds4.StrictIncr ⟨0, 1, 2, 3⟩ ∧
    computeScore ((⟨0, 1, 2, 3⟩ : Thresholds4).get 3) ⟨0, 1, 2, 3⟩ BiggerIsBetter ≠
      computeScore ((⟨0, 1, 2, 3⟩ : Thresholds4).get 3 - 1) ⟨0, 1, 2, 3⟩ BiggerIsBetter := by
  decide

/-- C9 amended: equality with a breakpoint never crosses it —
`score(b[0]) = score(b[0] - 1)` always, and for `i ≥ 1`,
`score(b[i]) = score(b[i] - 1)` whenever `b[i] - 1` still exceeds the
previous breakpoint (`b[i-1] < b[i] - 1`); when `b[i-1] = b[i] - 1` the
value `b[i] - 1` lies one band lower, as the counterexample shows. -/
theorem computeScore_boundary_amended (th : Thresholds4) (dir : Direction)
    (h : th.StrictIncr) :
    computeScore th.t0 th dir = computeScore (th.t0 - 1) th dir ∧
    (th.t0 < th.t1 - 1 → computeScore th.t1 th dir = computeScore (th.t1 - 1) th dir) ∧
    (th.t1 < th.t2 - 1 → computeScore th.t2 th dir = computeScore (th.t2 - 1) th dir) ∧
    (th.t2 < th.t3 - 1 → computeScore th.t3 th dir = computeScore (th.t3 - 1) th dir) := by
  obtain ⟨h01, h12, h23⟩ := h
  cases dir <;>
    simp only [computeScore, BiggerIsBetter, SmallerIsBetter, Bool.false_eq_true,
      Bool.true_eq_false, ite_true, ite_false, gt_iff_lt, scale1to5, scale5to1] <;>
    refine ⟨?_, fun hg1 => ?_, fun hg2 => ?_, fun hg3 => ?_⟩ <;>
    split_ifs <;> omega

/-- Witness for the amended C9 at breakpoints `(0,2,4,6)` (all gaps ≥ 2),
`BiggerIsBetter`: each boundary value scores like its predecessor. -/
theorem computeScore_boundary_amended_witness :
    computeScore 0 ⟨0, 2, 4, 6⟩ BiggerIsBetter = computeScore (0 - 1) ⟨0, 2, 4, 6⟩ BiggerIsBetter ∧
    computeScore 2 ⟨0, 2, 4, 6⟩ BiggerIsBetter = computeScore (2 - 1) ⟨0, 2, 4, 6⟩ BiggerIsBetter ∧
    computeScore 4 ⟨0, 2, 4, 6⟩ BiggerIsBetter = computeScore (4 - 1) ⟨0, 2, 4, 6⟩ BiggerIsBetter ∧
    computeScore 6 ⟨0, 2, 4, 6⟩ BiggerIsBetter = computeScore (6 - 1) ⟨0, 2, 4, 6⟩ BiggerIsBetter := by
  have h := computeScore_boundary_amended ⟨0, 2, 4, 6⟩ BiggerIsBetter (by decide)
  exact ⟨h.1, h.2.1 (by decide), h.2.2.1 (by decide), h.2.2.2 (by decide)⟩

/-! ## Weighted Check Aggregator (`computeScoreCardScore`) -/

/-- The inner check loop sets `found` iff some check bears the required
name, and adds the per-entry weighted sum and weight of the non-`-1`
matching checks to its accumulators. -/
lemma checkLoop_eq (name : String) (w : Int) (checks : List Check)
    (found : Bool) (s d : Int) :
    checkLoop name w checks found s d =
      (found || checks.any fun c => c.name == name,
       s + requiredSum checks (name, w),
       d + requiredWeight checks (name, w)) := by
  induction checks generalizing found s d with
  | nil => simp [checkLoop, requiredSum, requiredWeight]
  | cons c rest ih =>
    by_cases hn : c.name = name
    · by_cases hs : c.score = -1
      · simp [checkLoop, hn, hs, ih, requiredSum, requiredWeight, List.filter_cons,
          List.any_cons]
      · simp only [checkLoop, hn, hs, ite_true, ite_false, if_neg, if_pos,
          ne_eq, not_true_eq_false, reduceIte]
        rw [ih]
        simp [requiredSum, requiredWeight, List.filter_cons, hn, hs, List.any_cons]
        constructor <;> ring
    · simp only [checkLoop, ne_eq, hn, not_false_eq_true, reduceIte]
      rw [ih]
      have hb : (c.name == name) = false := beq_eq_false_iff_ne.mpr hn
      simp [requiredSum, requiredWeight, List.filter_cons, hn, List.any_cons, hb]

/-- When every required name occurs among the checks, the outer loop
returns the accumulated weighted sum and total weight. -/
lemma scoreCardLoop_ok (checks : List Check) (ws : List (String × Int)) (s d : Int)
    (h : ∀ nw ∈ ws, checks.any fun c => c.name == nw.1) :
    scoreCardLoop checks ws s d =
      .ok (s + specWeightedSum checks ws, d + specTotalWeight checks ws) := by
  induction ws generalizing s d with
  | nil => simp [scoreCardLoop, specWeightedSum, specTotalWeight]
  | cons nw rest ih =>
    obtain ⟨name, w⟩ := nw
    have hfound : checks.any (fun c => c.name == name) = true :=
      h (name, w) (List.mem_cons_self _ _)
    rw [scoreCardLoop, checkLoop_eq]
    simp only [hfound, Bool.false_or, ite_true, reduceIte]
    rw [ih _ _ fun x hx => h x (List.mem_cons_of_mem _ hx)]
    simp [specWeightedSum, specTotalWeight]
    constructor <;> ring

/-- When some required name occurs among no check, the outer loop aborts
with a `missingCheck` error naming a genuinely missing required name. -/
lemma scoreCardLoop_missing (checks : List Check) (ws : List (String × Int)) (s d : Int)
    (h : ∃ nw ∈ ws, ∀ c ∈ checks, c.name ≠ nw.1) :
    ∃ n, scoreCardLoop checks ws s d = .error (.missingCheck n) ∧
      (∃ w, (n, w) ∈ ws) ∧ ∀ c ∈ checks, c.name ≠ n := by
  induction ws generalizing s d with
  | nil => simp at h
  | cons nw rest ih =>
    obtain ⟨name, w⟩ := nw
    by_cases hfound : checks.any (fun c => c.name == name) = true
    · have hrest : ∃ nw ∈ rest, ∀ c ∈ checks, c.name ≠ nw.1 := by
        obtain ⟨nw', hmem, hnone⟩ := h
        rcases List.mem_cons.mp hmem with heq | hmem'
        · exfalso
          obtain ⟨c, hc, hcn⟩ := List.any_eq_true.mp hfound
          exact hnone c hc (by subst heq; exact (beq_iff_eq.mp hcn))
        · exact ⟨nw', hmem', hnone⟩
      obtain ⟨n, heq, ⟨w', hw'⟩, hnone⟩ := ih _ _ hrest
      refine ⟨n, ?_, ⟨w', List.mem_cons_of_mem _ hw'⟩, hnone⟩
      rw [scoreCardLoop, checkLoop_eq]
      simp only [hfound, Bool.false_or, reduceIte]
      exact heq
    · refine ⟨name, ?_, ⟨w, List.mem_cons_self _ _⟩, ?_⟩
      · rw [scoreCardLoop, checkLoop_eq]
        simp only [Bool.false_or]
        simp [hfound]
      · intro c hc hcn
        exact hfound (List.any_eq_true.mpr ⟨c, hc, beq_iff_eq.mpr hcn⟩)

/-- With a positive weight, a per-entry accumulated weight is nonnegative. -/
lemma requiredWeight_nonneg (checks : List Check) (nw : String × Int) (hw : 0 < nw.2) :
    0 ≤ requiredWeight checks nw := by
  unfold requiredWeight
  apply List.sum_nonneg
  intro x hx
  obtain ⟨c, _, rfl⟩ := List.mem_map.mp hx
  omega

/-- With a positive weight and an applicable matching check, a per-entry
accumulated weight is positive. -/
lemma requiredWeight_pos (checks : List Check) (nw : String × Int) (hw : 0 < nw.2)
    (h : ∃ c ∈ checks, c.name = nw.1 ∧ c.score ≠ -1) :
    0 < requiredWeight checks nw := by
  obtain ⟨c, hc, hname, hscore⟩ := h
  have hmem : nw.2 ∈ (checks.filter fun c => c.name == nw.1 && c.score != -1).map
      fun _ => nw.2 := by
    apply List.mem_map.mpr
    refine ⟨c, List.mem_filter.mpr ⟨hc, ?_⟩, rfl⟩
    simp [hname, hscore]
  have hle := List.single_le_sum
    (fun x hx => by obtain ⟨c', _, rfl⟩ := List.mem_map.mp hx; omega) _ hmem
  unfold requiredWeight
  omega

/-- With positive weights and at least one applicable required check, the
total weight is positive. -/
lemma specTotalWeight_pos (checks : List Check) (ws : List (String × Int))
    (hpos : ∀ nw ∈ ws, 0 < nw.2)
    (happ : ∃ nw ∈ ws, ∃ c ∈ checks, c.name = nw.1 ∧ c.score ≠ -1) :
    0 < specTotalWeight checks ws := by
  obtain ⟨nw, hmem, hc⟩ := happ
  have h1 : requiredWeight checks nw ≤ specTotalWeight checks ws := by
    unfold specTotalWeight
    exact List.single_le_sum
      (fun x hx => by
        obtain ⟨nw', hnw', rfl⟩ := List.mem_map.mp hx
        exact requiredWeight_nonneg _ _ (hpos _ hnw'))
      _ (List.mem_map.mpr ⟨nw, hmem, rfl⟩)
  have h2 := requiredWeight_pos checks nw (hpos _ hmem) hc
  omega

/-- C1: for positive per-name weights where every required name occurs
among the checks and at least one such check is applicable (score ≠ -1),
the aggregator returns exactly `((weightedSum + 1) tdiv totalWeight) tdiv 2`
— two separate truncating divisions — where `weightedSum` and
`totalWeight` range over exactly the required checks with score ≠ -1
(score `-1` checks contribute to neither accumulator; checks not named in
the weights are ignored). -/
theorem scorecard_weighted_aggregation (stats : ProjectStats) (weights : Weights)
    (hpos : ∀ nw ∈ weights.scoreCard, 0 < nw.2)
    (hfound : ∀ nw ∈ weights.scoreCard, ∃ c ∈ stats.scoreCard.checks, c.name = nw.1)
    (happ : ∃ nw ∈ weights.scoreCard, ∃ c ∈ stats.scoreCard.checks,
      c.name = nw.1 ∧ c.score ≠ -1) :
    computeScoreCardScore stats weights =
      .ok (((specWeightedSum stats.scoreCard.checks weights.scoreCard + 1).tdiv
            (specTotalWeight stats.scoreCard.checks weights.scoreCard)).tdiv 2) := by
  have hT := specTotalWeight_pos stats.scoreCard.checks weights.scoreCard hpos happ
  have hne : specTotalWeight stats.scoreCard.checks weights.scoreCard ≠ 0 := by omega
  have hok := scoreCardLoop_ok stats.scoreCard.checks weights.scoreCard 0 0
    (fun nw hnw => by
      obtain ⟨c, hc, hcn⟩ := hfound nw hnw
      exact List.any_eq_true.mpr ⟨c, hc, beq_iff_eq.mpr hcn⟩)
  unfold computeScoreCardScore
  rw [hok]
  simp [hne]

/-- Witness for C1 at the spec's Example 3: checks
`{(Binary-Artifacts, 5), (CI-Tests, -1)}` with weights
`{Binary-Artifacts: 1, CI-Tests: 1}` give `((5+1)/1)/2 = 3`. -/
theorem scorecard_weighted_aggregation_witness :
    computeScoreCardScore
      ⟨⟨0, 0, 0, 0⟩, ⟨0, 1, 1, 0, 0, 0, 0⟩,
        ⟨[⟨"Binary-Artifacts", 5⟩, ⟨"CI-Tests", -1⟩]⟩⟩
      ⟨[("Binary-Artifacts", 1), ("CI-Tests", 1)]⟩ = Except.ok 3 := by
  have h := scorecard_weighted_aggregation
    ⟨⟨0, 0, 0, 0⟩, ⟨0, 1, 1, 0, 0, 0, 0⟩,
      ⟨[⟨"Binary-Artifacts", 5⟩, ⟨"CI-Tests", -1⟩]⟩⟩
    ⟨[("Binary-Artifacts", 1), ("CI-Tests", 1)]⟩ (by decide) (by decide) (by decide)
  exact h.trans (by decide)

/-- A concrete thresholds record used by witnesses and counterexamples:
every metric uses the strictly increasing breakpoints `(0, 1, 2, 3)`. -/
def exThresholds : Thresholds :=
  { community := ⟨⟨0, 1, 2, 3⟩, ⟨0, 1, 2, 3⟩, ⟨0, 1, 2, 3⟩, ⟨0, 1, 2, 3⟩⟩,
    tech := ⟨⟨0, 1, 2, 3⟩, ⟨0, 1, 2, 3⟩, ⟨0, 1, 2, 3⟩, ⟨0, 1, 2, 3⟩, ⟨0, 1, 2, 3⟩⟩ }

/-- C4: whenever some name required by the weights has no entry with that
exact name among the checks, the aggregator fails with a `missingCheck`
error identifying a required name that is indeed absent, and the whole
scoring computation aborts with an error: no score record is produced. -/
theorem scorecard_missing_check (now : Int) (stats : ProjectStats) (thresholds : Thresholds)
    (weights : Weights)
    (h : ∃ nw ∈ weights.scoreCard, ∀ c ∈ stats.scoreCard.checks, c.name ≠ nw.1) :
    (∃ n, computeScoreCardScore stats weights = .error (.missingCheck n) ∧
       (∃ w, (n, w) ∈ weights.scoreCard) ∧ ∀ c ∈ stats.scoreCard.checks, c.name ≠ n) ∧
    ∃ e, ComputeScores now stats thresholds weights = .error e := by
  obtain ⟨n, heq, hmem, hnone⟩ :=
    scoreCardLoop_missing stats.scoreCard.checks weights.scoreCard 0 0 h
  have hagg : computeScoreCardScore stats weights = .error (.missingCheck n) := by
    unfold computeScoreCardScore
    rw [heq]
  refine ⟨⟨n, hagg, hmem, hnone⟩, ?_⟩
  unfold ComputeScores
  by_cases hf : stats.sonar.functions = 0
  · exact ⟨.divByZero, by simp [computeCyclomaticComplexityScore, hf]⟩
  · by_cases hcs : stats.sonar.codeSmells = 0
    · exact ⟨.divByZero, by
        simp [computeCyclomaticComplexityScore, computeCognitiveComplexityScore,
          computeCodeSmellsScore, hf, hcs]⟩
    · exact ⟨.missingCheck n, by
        simp [computeCyclomaticComplexityScore, computeCognitiveComplexityScore,
          computeCodeSmellsScore, hf, hcs, hagg]⟩

/-- Witness for C4: weights require "CI-Tests" but the only check is
"Binary-Artifacts", so the aggregator reports a missing check and the
assembler yields an error. -/
theorem scorecard_missing_check_witness :
    (∃ n, computeScoreCardScore
        ⟨⟨0, 0, 0, 0⟩, ⟨0, 1, 1, 0, 0, 0, 0⟩, ⟨[⟨"Binary-Artifacts", 5⟩]⟩⟩
        ⟨[("CI-Tests", 1)]⟩ = Except.error (ScoreErr.missingCheck n)) ∧
    ∃ e, ComputeScores 0
        ⟨⟨0, 0, 0, 0⟩, ⟨0, 1, 1, 0, 0, 0, 0⟩, ⟨[⟨"Binary-Artifacts", 5⟩]⟩⟩
        exThresholds ⟨[("CI-Tests", 1)]⟩ = Except.error e := by
  obtain ⟨⟨n, hn, _, _⟩, he⟩ := scorecard_missing_check 0
    ⟨⟨0, 0, 0, 0⟩, ⟨0, 1, 1, 0, 0, 0, 0⟩, ⟨[⟨"Binary-Artifacts", 5⟩]⟩⟩
    exThresholds ⟨[("CI-Tests", 1)]⟩ (by decide)
  exact ⟨⟨n, hn⟩, he⟩

/-- C5: when every required check is present but each of them has score
`-1`, the accumulated total weight is zero and the aggregator fails with
the divide-by-zero error, producing no score. -/
theorem scorecard_all_na_divide_by_zero (stats : ProjectStats) (weights : Weights)
    (hfound : ∀ nw ∈ weights.scoreCard, ∃ c ∈ stats.scoreCard.checks, c.name = nw.1)
    (hna : ∀ c ∈ stats.scoreCard.checks,
        (∃ nw ∈ weights.scoreCard, c.name = nw.1) → c.score = -1) :
    computeScoreCardScore stats weights = .error .divByZero := by
  have hzero : specTotalWeight stats.scoreCard.checks weights.scoreCard = 0 := by
    unfold specTotalWeight
    apply List.sum_eq_zero
    intro x hx
    obtain ⟨nw, hnw, rfl⟩ := List.mem_map.mp hx
    unfold requiredWeight
    have hfilter : (stats.scoreCard.checks.filter
        fun c => c.name == nw.1 && c.score != -1) = [] := by
      apply List.filter_eq_nil_iff.mpr
      intro c hc
      simp only [Bool.and_eq_true, beq_iff_eq, bne_iff_ne, ne_eq, not_and, not_not]
      intro hname
      exact hna c hc ⟨nw, hnw, hname⟩
    rw [hfilter]
    rfl
  have hok := scoreCardLoop_ok stats.scoreCard.checks weights.scoreCard 0 0
    (fun nw hnw => by
      obtain ⟨c, hc, hcn⟩ := hfound nw hnw
      exact List.any_eq_true.mpr ⟨c, hc, beq_iff_eq.mpr hcn⟩)
  unfold computeScoreCardScore
  rw [hok]
  simp [hzero]

/-- Witness for C5: the single required check "CI-Tests" is present with
score `-1`, so the aggregator fails with the divide-by-zero error. -/
theorem scorecard_all_na_divide_by_zero_witness :
    computeScoreCardScore
      ⟨⟨0, 0, 0, 0⟩, ⟨0, 1, 1, 0, 0, 0, 0⟩, ⟨[⟨"CI-Tests", -1⟩]⟩⟩
      ⟨[("CI-Tests", 2)]⟩ = Except.error ScoreErr.divByZero :=
  scorecard_all_na_divide_by_zero
    ⟨⟨0, 0, 0, 0⟩, ⟨0, 1, 1, 0, 0, 0, 0⟩, ⟨[⟨"CI-Tests", -1⟩]⟩⟩
    ⟨[("CI-Tests", 2)]⟩ (by decide) (by decide)

/-! ## Metric Preprocessor and Score Assembler -/

/-- C3 counterexample: with `functionCount = 0` (and `codeSmellCount = 1`),
the engine's failure at the cyclomatic/cognitive ratio is the modelled
runtime integer-division-by-zero fault (`ScoreErr.divByZero`) — the source
performs no explicit input validation and has no InvalidInput error kind
at all, contradicting the claim that it "fails explicitly with an
InvalidInput error ... rather than raising a platform-level division
fault". -/
theorem preprocessor_zero_divisor_cex :
    ComputeScores 0 ⟨⟨0, 0, 0, 0⟩, ⟨100, 0, 1, 0, 0, 0, 0⟩, ⟨[⟨"CI-Tests", 5⟩]⟩⟩
      exThresholds ⟨[("CI-Tests", 1)]⟩ = Except.error ScoreErr.divByZero := by
  decide

/-- C3 amended: if `functionCount = 0` or `codeSmellCount = 0`, the
scoring computation aborts with the division-by-zero fault and produces
no score — it never yields a silently wrong value — but the failure is
the unchecked division fault, not a distinct explicit InvalidInput
error. -/
theorem preprocessor_zero_divisor_faults (now : Int) (stats : ProjectStats)
    (thresholds : Thresholds) (weights : Weights)
    (h : stats.sonar.functions = 0 ∨ stats.sonar.codeSmells = 0) :
    ComputeScores now stats thresholds weights = .error ScoreErr.divByZero := by
  unfold ComputeScores
  by_cases hf : stats.sonar.functions = 0
  · simp [computeCyclomaticComplexityScore, hf]
  · have hcs : stats.sonar.codeSmells = 0 := by tauto
    simp [computeCyclomaticComplexityScore, computeCognitiveComplexityScore,
      computeCodeSmellsScore, hf, hcs]

/-- Witness for the amended C3 at `codeSmellCount = 0` (with
`functionCount = 1`): the computation aborts with the division fault. -/
theorem preprocessor_zero_divisor_faults_witness :
    ComputeScores 0 ⟨⟨0, 0, 0, 0⟩, ⟨50, 1, 0, 0, 0, 0, 0⟩, ⟨[⟨"CI-Tests", 5⟩]⟩⟩
      exThresholds ⟨[("CI-Tests", 1)]⟩ = Except.error ScoreErr.divByZero :=
  preprocessor_zero_divisor_faults 0
    ⟨⟨0, 0, 0, 0⟩, ⟨50, 1, 0, 0, 0, 0, 0⟩, ⟨[⟨"CI-Tests", 5⟩]⟩⟩
    exThresholds ⟨[("CI-Tests", 1)]⟩ (Or.inr rfl)

/-- C6: with positive `functionCount` and `codeSmellCount`, the derived
metrics are exactly `100 * brainOverloadFunctionCount tdiv functionCount`
(banded SmallerIsBetter), `cognitiveComplexitySum tdiv functionCount`
(SmallerIsBetter), the truncated duplicated-line density (SmallerIsBetter),
and `linesOfCode tdiv codeSmellCount` (BiggerIsBetter). -/
theorem preprocessor_derived_metrics (stats : ProjectStats) (thresholds : Thresholds)
    (hf : 0 < stats.sonar.functions) (hcs : 0 < stats.sonar.codeSmells) :
    computeCyclomaticComplexityScore stats thresholds =
      .ok (computeScore ((100 * stats.sonar.brainOverload).tdiv stats.sonar.functions)
        thresholds.tech.cyclomaticComplexity SmallerIsBetter) ∧
    computeCognitiveComplexityScore stats thresholds =
      .ok (computeScore (stats.sonar.cognitiveComplexity.tdiv stats.sonar.functions)
        thresholds.tech.cognitiveComplexity SmallerIsBetter) ∧
    computeDuplicationScore stats thresholds =
      computeScore (ratTrunc stats.sonar.duplicationDensity)
        thresholds.tech.duplication SmallerIsBetter ∧
    computeCodeSmellsScore stats thresholds =
      .ok (computeScore (stats.sonar.linesOfCode.tdiv stats.sonar.codeSmells)
        thresholds.tech.codeSmells BiggerIsBetter) := by
  refine ⟨?_, ?_, rfl, ?_⟩ <;>
    simp [computeCyclomaticComplexityScore, computeCognitiveComplexityScore,
      computeCodeSmellsScore, hf.ne', hcs.ne']

/-- Witness for C6: `linesOfCode = 1000`, `functionCount = 4`,
`codeSmellCount = 2`, `brainOverload = 1`, `cognitive sum = 40`,
density `7/2`: the derived values `25`, `10`, `3`, `500` band to scores
`1`, `1`, `2`, `5` against breakpoints `(0,1,2,3)`. -/
theorem preprocessor_derived_metrics_witness :
    computeCyclomaticComplexityScore
      ⟨⟨0, 0, 0, 0⟩, ⟨1000, 4, 2, 1, 0, 40, mkRat 7 2⟩, ⟨[]⟩⟩ exThresholds = Except.ok 1 ∧
    computeCognitiveComplexityScore
      ⟨⟨0, 0, 0, 0⟩, ⟨1000, 4, 2, 1, 0, 40, mkRat 7 2⟩, ⟨[]⟩⟩ exThresholds = Except.ok 1 ∧
    computeDuplicationScore
      ⟨⟨0, 0, 0, 0⟩, ⟨1000, 4, 2, 1, 0, 40, mkRat 7 2⟩, ⟨[]⟩⟩ exThresholds = 2 ∧
    computeCodeSmellsScore
      ⟨⟨0, 0, 0, 0⟩, ⟨1000, 4, 2, 1, 0, 40, mkRat 7 2⟩, ⟨[]⟩⟩ exThresholds = Except.ok 5 := by
  have h := preprocessor_derived_metrics
    ⟨⟨0, 0, 0, 0⟩, ⟨1000, 4, 2, 1, 0, 40, mkRat 7 2⟩, ⟨[]⟩⟩ exThresholds
    (by decide) (by decide)
  exact ⟨h.1.trans (by decide), h.2.1.trans (by decide),
    h.2.2.1.trans (by decide), h.2.2.2.trans (by decide)⟩

/-- C7 counterexample: two invocations with bit-identical stats,
thresholds and weights but clock readings `0` and `1` produce different
score records (the maturity band moves), so the output is not a function
of those three inputs alone: the assembler reads the wall clock through
`time.Since`. -/
theorem assembler_clock_dependence_cex :
    ComputeScores 0 ⟨⟨0, 0, 0, 0⟩, ⟨0, 1, 1, 0, 0, 0, 0⟩, ⟨[⟨"CI-Tests", 0⟩]⟩⟩
        exThresholds ⟨[("CI-Tests", 1)]⟩ ≠
      ComputeScores 1 ⟨⟨0, 0, 0, 0⟩, ⟨0, 1, 1, 0, 0, 0, 0⟩, ⟨[⟨"CI-Tests", 0⟩]⟩⟩
        exThresholds ⟨[("CI-Tests", 1)]⟩ := by
  decide

/-- C7 amended: `ComputeScores` is a deterministic pure function of the
stats, thresholds, weights and the clock reading, and it depends on the
clock only through the elapsed durations since the two commit dates:
shifting the clock and both commit dates by the same amount leaves the
output bit-identical. Two calls at the same instant with identical inputs
therefore agree; calls at different instants may differ. -/
theorem assembler_deterministic_modulo_clock (now d : Int) (stats : ProjectStats)
    (thresholds : Thresholds) (weights : Weights) :
    ComputeScores (now + d) (shiftDates d stats) thresholds weights =
      ComputeScores now stats thresholds weights := by
  have h1 : now + d - (stats.gitHub.firstCommitDate + d) =
      now - stats.gitHub.firstCommitDate := by ring
  have h2 : now + d - (stats.gitHub.lastCommitDate + d) =
      now - stats.gitHub.lastCommitDate := by ring
  simp [ComputeScores, shiftDates, computeMaturityScore, computeActivityScore,
    computePopularityScore, computeContributorsScore, computeSizeScore,
    computeCyclomaticComplexityScore, computeCognitiveComplexityScore,
    computeDuplicationScore, computeCodeSmellsScore, computeScoreCardScore, h1, h2]
